import Mathlib

/-
Verification of the tool-calling agent loop of the mbxai service template.

The development shallowly embeds the two client modules that contain the
loop, retry and dispatch logic:
  * `clients/mcp.py`        (`McpClient`): `_execute_with_retry`,
    `_process_tool_calls`, `agent`, `agent_stream`;
  * `clients/openrouter.py` (`OpenRouterApiClient`): `register_tool`,
    `unregister_tool`, `get_registered_tools`, `_execute_tool`,
    `_execute_with_retry`, `_execute_agent_loop`.

Python dicts keyed by strings are embedded as association lists with
overwrite-on-insert semantics; `json.loads` is an abstract decoder
`String → Except String α`; an awaited call that may raise is a function
into `Except String _` (the error string standing for `str(e)`).  The
model-invocation boundary (`_call_llm` / the completions API) is an
abstract function from the current conversation to the returned message.
Aliasing-sensitive statements are settled against a second, store-passing
translation of the same functions (`Heap`-suffixed definitions below).
-/

namespace MbxaiAgent

/-- A single quote character, used in embedded Python error strings. -/
def sq : Char := Char.ofNat 39

/-- A single-quote string, used in embedded Python error strings. -/
def sqs : String := String.singleton sq

/-- Embedding of `d[k] = v` on a Python dict embedded as an association list:
overwrite the existing binding if present, otherwise append. -/
def dictSet {α : Type} : List (String × α) → String → α → List (String × α)
  | [], k, v => [(k, v)]
  | (k₀, v₀) :: rest, k, v =>
    if k₀ = k then (k, v) :: rest else (k₀, v₀) :: dictSet rest k v

/-- Embedding of `d.get(k)` on a Python dict embedded as an association list (also
`k in d` via `isSome`, and `d[k]`). -/
def dictGet {α : Type} : List (String × α) → String → Option α
  | [], _ => none
  | (k₀, v₀) :: rest, k => if k₀ = k then some v₀ else dictGet rest k

/-- Embedding of `del d[k]` on a Python dict embedded as an association list. -/
def dictDel {α : Type} (d : List (String × α)) (k : String) : List (String × α) :=
  d.filter (fun p => p.1 != k)

/-- Whether `pat` occurs as a contiguous sublist of `s`. -/
def listHasInfix (pat : List Char) : List Char → Bool
  | [] => pat.isPrefixOf []
  | c :: rest => pat.isPrefixOf (c :: rest) || listHasInfix pat rest

/-- Substring test used to state properties about error-message forms. -/
def containsSubstr (s pat : String) : Bool :=
  listHasInfix pat.toList s.toList

/-- Prefix test used to state properties about error-message forms. -/
def strStartsWith (s pre : String) : Bool :=
  pre.toList.isPrefixOf s.toList

/-- The `function` member of a model-issued tool call
(`tool_call.function.name` / `tool_call.function.arguments`). -/
structure ToolCallFunction where
  name : String
  arguments : String
deriving DecidableEq

/-- A model-issued tool call as rebuilt by the clients:
the dict holding id, type, and the function member. -/
structure ToolCall where
  id : String
  type : String
  function : ToolCallFunction
deriving DecidableEq

/-- A tool-result record as appended by the dispatchers:
the dict holding tool_call_id, role tag tool, name and content. -/
structure ToolResult where
  tool_call_id : String
  role : String
  name : String
  content : String
deriving DecidableEq

/-- A conversation message.  `content` is `None`-able, `tool_calls` is the
(possibly empty) tool-call list, `tool_call_id`/`name` are set on tool
results, `parsed` is the structured-parse payload of a model response. -/
structure Message where
  role : String
  content : Option String
  tool_calls : List ToolCall
  tool_call_id : Option String
  name : Option String
  parsed : Option String
deriving DecidableEq

/-- The assistant message recording the raw tool-call list:
role assistant, content None, tool_calls populated. -/
def assistantToolCallMessage (tool_calls : List ToolCall) : Message :=
  { role := "assistant", content := none, tool_calls := tool_calls,
    tool_call_id := none, name := none, parsed := none }

/-- A `ToolResult` dict viewed as a conversation message when appended. -/
def toolResultMessage (r : ToolResult) : Message :=
  { role := r.role, content := some r.content, tool_calls := [],
    tool_call_id := some r.tool_call_id, name := some r.name, parsed := none }

/-- The try-block of `McpClient._process_tool_calls` for one tool call:
decode the arguments, look the tool up in `self._mcp_clients`, and either
call the tool (`result.content[0].text`, any raise becoming an error) or
produce the fixed not-found content.  An `Except.error e` models an
exception reaching the `except` clause with `str(e) = e`. -/
def mcpToolAttempt {α : Type} (clients : List (String × (α → Except String String)))
    (decode : String → Except String α) (tc : ToolCall) : Except String String :=
  match decode tc.function.arguments with
  | .error e => .error e
  | .ok args =>
    match dictGet clients tc.function.name with
    | some client =>
      match client args with
      | .ok text => .ok text
      | .error e => .error e
    | none => .ok ("Error: No MCP client found for tool: " ++ tc.function.name)

/-- One tool call processed by `McpClient._process_tool_calls`: the
`except Exception` clause turns a raise into `"Error: " ++ str(e)`. -/
def mcpExecToolCall {α : Type} (clients : List (String × (α → Except String String)))
    (decode : String → Except String α) (tc : ToolCall) : ToolResult :=
  match mcpToolAttempt clients decode tc with
  | .ok content =>
    { tool_call_id := tc.id, role := "tool", name := tc.function.name, content := content }
  | .error e =>
    { tool_call_id := tc.id, role := "tool", name := tc.function.name, content := "Error: " ++ e }

/-- Embedding of `OpenRouterApiClient._execute_tool`: raises `ValueError` when the tool
is not in `self._registered_tools` or has no handler, otherwise awaits the
handler. -/
def orExecuteTool {α σ : Type} (registered : List (String × σ))
    (handlers : List (String × (α → Except String String)))
    (tool_name : String) (args : α) : Except String String :=
  if (dictGet registered tool_name).isSome then
    match dictGet handlers tool_name with
    | some handler => handler args
    | none => .error ("Tool " ++ sqs ++ tool_name ++ sqs ++ " has no handler registered")
  else
    .error ("Tool " ++ sqs ++ tool_name ++ sqs ++ " is not registered")

/-- The try-block of `OpenRouterApiClient._execute_agent_loop` for one tool
call: decode the arguments, run `_execute_tool`, serialize the result with
`json.dumps`. -/
def orToolAttempt {α σ : Type} (registered : List (String × σ))
    (handlers : List (String × (α → Except String String)))
    (decode : String → Except String α) (dumps : String → String)
    (tc : ToolCall) : Except String String :=
  match decode tc.function.arguments with
  | .error e => .error e
  | .ok args =>
    match orExecuteTool registered handlers tc.function.name args with
    | .ok v => .ok (dumps v)
    | .error e => .error e

/-- One tool call processed by `OpenRouterApiClient._execute_agent_loop`:
the `except Exception` clause turns a raise into `"Error: " ++ str(e)`. -/
def orExecToolCall {α σ : Type} (registered : List (String × σ))
    (handlers : List (String × (α → Except String String)))
    (decode : String → Except String α) (dumps : String → String)
    (tc : ToolCall) : ToolResult :=
  match orToolAttempt registered handlers decode dumps tc with
  | .ok content =>
    { tool_call_id := tc.id, role := "tool", name := tc.function.name, content := content }
  | .error e =>
    { tool_call_id := tc.id, role := "tool", name := tc.function.name, content := "Error: " ++ e }

/-- The local variables threaded through one agent-loop run:
`current_messages`, `all_tool_calls`, `all_tool_results`, the `message`
local of the last executed iteration (`none` while unassigned), the
`iteration` counter, and a ghost count of model invocations (`_call_llm`
awaits / completions-API calls), incremented exactly where the source
awaits the model. -/
structure LoopState where
  currentMessages : List Message
  allToolCalls : List ToolCall
  allToolResults : List ToolResult
  lastMessage : Option Message
  iteration : Nat
  llmCalls : Nat
deriving DecidableEq

/-- Loop-variable initialization shared by `agent`, `agent_stream` and
`_execute_agent_loop`: `current_messages = messages.copy()`, empty
accumulators, `iteration = 0`. -/
def initLoopState (messages : List Message) : LoopState :=
  { currentMessages := messages, allToolCalls := [], allToolResults := [],
    lastMessage := none, iteration := 0, llmCalls := 0 }

/-- Embedding of `McpClient._process_tool_calls`: when the message carries tool calls,
execute each in order, then append to a copy of `messages` the assistant
message holding the raw tool-call list followed by each tool result;
otherwise return the inputs unchanged. -/
def mcpProcessToolCalls {α : Type} (clients : List (String × (α → Except String String)))
    (decode : String → Except String α) (message : Message) (messages : List Message) :
    List ToolCall × List ToolResult × List Message :=
  if message.tool_calls.isEmpty then ([], [], messages)
  else
    let tool_calls := message.tool_calls
    let tool_results := tool_calls.map (mcpExecToolCall clients decode)
    let updated_messages :=
      (messages ++ [assistantToolCallMessage tool_calls]) ++ tool_results.map toolResultMessage
    (tool_calls, tool_results, updated_messages)

/-- The `while iteration < max_iterations` loop of `McpClient.agent`,
structurally recursing on the remaining iteration budget.  Each pass
increments `iteration`, awaits the model on the current conversation,
processes tool calls, accumulates them, and stops early when the model
issued none. -/
def mcpAgentLoop {α : Type} (llm : List Message → Message)
    (clients : List (String × (α → Except String String)))
    (decode : String → Except String α) : Nat → LoopState → LoopState
  | 0, st => st
  | fuel + 1, st =>
    let st₁ := { st with iteration := st.iteration + 1 }
    let message := llm st₁.currentMessages
    let st₂ := { st₁ with llmCalls := st₁.llmCalls + 1 }
    let r := mcpProcessToolCalls clients decode message st₂.currentMessages
    let tool_calls := r.1
    let tool_results := r.2.1
    let st₃ := { st₂ with
      currentMessages := r.2.2,
      allToolCalls := st₂.allToolCalls ++ tool_calls,
      allToolResults := st₂.allToolResults ++ tool_results,
      lastMessage := some message }
    if tool_calls.isEmpty then st₃
    else mcpAgentLoop llm clients decode fuel st₃

/-- The final dictionary returned by `agent` / `_execute_agent_loop`
(`parsed` in structured-parse mode, `content` otherwise). -/
structure AgentResult where
  content : Option String
  parsed : Option String
  tool_calls : List ToolCall
  tool_results : List ToolResult
deriving DecidableEq

/-- Final-result construction shared by the single-result loops: built
from the `message` local left by the last executed iteration. -/
def mkAgentResult (structuredParse : Bool) (m : Message)
    (tool_calls : List ToolCall) (tool_results : List ToolResult) : AgentResult :=
  if structuredParse then
    { content := none, parsed := m.parsed, tool_calls := tool_calls, tool_results := tool_results }
  else
    { content := some (m.content.getD ""), parsed := none,
      tool_calls := tool_calls, tool_results := tool_results }

/-- Error value modelling the `UnboundLocalError` raised when the final
result references the `message` local and the loop body never ran. -/
def unboundLocalMessage : String :=
  "UnboundLocalError: local variable message referenced before assignment"

/-- Embedding of `McpClient.agent`: run the loop on a copy of the messages of the caller;
with a non-positive iteration budget the loop body never runs and reading
`message` raises.  `structuredParse` selects the `parsed` branch of the
final dictionary. -/
def mcpAgent {α : Type} (llm : List Message → Message)
    (clients : List (String × (α → Except String String)))
    (decode : String → Except String α) (structuredParse : Bool)
    (messages : List Message) (maxIterations : Int) : Except String AgentResult :=
  let final := mcpAgentLoop llm clients decode maxIterations.toNat (initLoopState messages)
  match final.lastMessage with
  | none => .error unboundLocalMessage
  | some m => .ok (mkAgentResult structuredParse m final.allToolCalls final.allToolResults)

/-- One dictionary yielded by `McpClient.agent_stream` (`parsed` branch in
structured-parse mode, `content` branch otherwise). -/
structure Snapshot where
  content : Option String
  parsed : Option String
  tool_calls : List ToolCall
  tool_results : List ToolResult
  iteration : Nat
  is_final : Bool
deriving DecidableEq

/-- Snapshot construction of `agent_stream`, branching on the
structured-parse flag exactly as the source yields do. -/
def mkSnapshot (structuredParse : Bool) (m : Message) (tool_calls : List ToolCall)
    (tool_results : List ToolResult) (iteration : Nat) (isFinal : Bool) : Snapshot :=
  if structuredParse then
    { content := none, parsed := m.parsed, tool_calls := tool_calls,
      tool_results := tool_results, iteration := iteration, is_final := isFinal }
  else
    { content := some (m.content.getD ""), parsed := none, tool_calls := tool_calls,
      tool_results := tool_results, iteration := iteration, is_final := isFinal }

/-- The `while` loop of `McpClient.agent_stream`: as `mcpAgentLoop`, but
collecting the yields — one snapshot after every model invocation, and a
second one in the same iteration when tool calls were processed. -/
def mcpAgentStreamLoop {α : Type} (llm : List Message → Message)
    (clients : List (String × (α → Except String String)))
    (decode : String → Except String α) (structuredParse : Bool) :
    Nat → LoopState → List Snapshot × LoopState
  | 0, st => ([], st)
  | fuel + 1, st =>
    let st₁ := { st with iteration := st.iteration + 1 }
    let message := llm st₁.currentMessages
    let st₂ := { st₁ with llmCalls := st₁.llmCalls + 1 }
    let snap₁ := mkSnapshot structuredParse message [] [] st₂.iteration false
    let r := mcpProcessToolCalls clients decode message st₂.currentMessages
    let tool_calls := r.1
    let tool_results := r.2.1
    let st₃ := { st₂ with
      currentMessages := r.2.2,
      allToolCalls := st₂.allToolCalls ++ tool_calls,
      allToolResults := st₂.allToolResults ++ tool_results,
      lastMessage := some message }
    if tool_calls.isEmpty then ([snap₁], st₃)
    else
      let snap₂ := mkSnapshot structuredParse message tool_calls tool_results st₃.iteration false
      let rest := mcpAgentStreamLoop llm clients decode structuredParse fuel st₃
      (snap₁ :: snap₂ :: rest.1, rest.2)

/-- Embedding of `McpClient.agent_stream`: the finite sequence of yielded snapshots —
the per-iteration yields followed by the final snapshot built from the
`message` local with the accumulated histories and `is_final = True`.
With a non-positive budget the final yield reads an unassigned local. -/
def mcpAgentStream {α : Type} (llm : List Message → Message)
    (clients : List (String × (α → Except String String)))
    (decode : String → Except String α) (structuredParse : Bool)
    (messages : List Message) (maxIterations : Int) : Except String (List Snapshot) :=
  let r := mcpAgentStreamLoop llm clients decode structuredParse maxIterations.toNat
    (initLoopState messages)
  match r.2.lastMessage with
  | none => .error unboundLocalMessage
  | some m =>
    .ok (r.1 ++ [mkSnapshot structuredParse m r.2.allToolCalls r.2.allToolResults r.2.iteration true])

/-- The `while iteration < max_iterations` loop of
`OpenRouterApiClient._execute_agent_loop`.  When the model issued tool
calls the source extends `all_tool_calls`, executes the calls appending
each result to `all_tool_results` and to `current_messages`, and only
then appends the assistant tool-call message; with no tool calls it
breaks. -/
def orAgentLoop {α σ : Type} (llm : List Message → Message)
    (registered : List (String × σ))
    (handlers : List (String × (α → Except String String)))
    (decode : String → Except String α) (dumps : String → String) :
    Nat → LoopState → LoopState
  | 0, st => st
  | fuel + 1, st =>
    let st₁ := { st with iteration := st.iteration + 1 }
    let message := llm st₁.currentMessages
    let st₂ := { st₁ with llmCalls := st₁.llmCalls + 1, lastMessage := some message }
    if message.tool_calls.isEmpty then st₂
    else
      let tool_calls := message.tool_calls
      let tool_results := tool_calls.map (orExecToolCall registered handlers decode dumps)
      let st₃ := { st₂ with
        allToolCalls := st₂.allToolCalls ++ tool_calls,
        allToolResults := st₂.allToolResults ++ tool_results,
        currentMessages :=
          (st₂.currentMessages ++ tool_results.map toolResultMessage)
            ++ [assistantToolCallMessage tool_calls] }
      orAgentLoop llm registered handlers decode dumps fuel st₃

/-- Embedding of the `OpenRouterApiClient._execute_agent_loop` top level: run the loop on a
copy of `messages` and build the final dictionary from the `final_result`
of the last executed iteration (unassigned when the loop never ran). -/
def orAgent {α σ : Type} (llm : List Message → Message)
    (registered : List (String × σ))
    (handlers : List (String × (α → Except String String)))
    (decode : String → Except String α) (dumps : String → String)
    (structuredParse : Bool) (messages : List Message) (maxIterations : Int) :
    Except String AgentResult :=
  let final := orAgentLoop llm registered handlers decode dumps maxIterations.toNat
    (initLoopState messages)
  match final.lastMessage with
  | none => .error unboundLocalMessage
  | some m => .ok (mkAgentResult structuredParse m final.allToolCalls final.allToolResults)

/-- Outcome of one attempt of the operation wrapped by
`_execute_with_retry`: a returned value, or one of the exception classes
the source catches (`asyncio.TimeoutError`, `json.JSONDecodeError`,
`OpenAIError`, and the catch-all `Exception`). -/
inductive AttemptOutcome (ρ : Type) where
  | success : ρ → AttemptOutcome ρ
  | timeout : AttemptOutcome ρ
  | jsonDecodeError : AttemptOutcome ρ
  | openAIError : AttemptOutcome ρ
  | unexpectedError : AttemptOutcome ρ
deriving DecidableEq

/-- Whether an attempt returned a value rather than raising. -/
def AttemptOutcome.isSuccess {ρ : Type} : AttemptOutcome ρ → Bool
  | .success _ => true
  | _ => false

/-- The `for attempt in range(1, max_retries + 1)` body of
`_execute_with_retry` (identical in both clients): return the result on
success; on any caught failure return `None` when the budget is spent,
otherwise sleep `retry_delay * attempt` and go to the next attempt.  The
second component records the backoff waits performed, in order.  The fuel
equals the number of loop passes left (`max_retries - attempt + 1`). -/
def executeWithRetryGo {ρ : Type} (op : Nat → AttemptOutcome ρ)
    (maxRetries retryDelay : Nat) : Nat → Nat → List Nat → Option ρ × List Nat
  | 0, _, waits => (none, waits)
  | fuel + 1, attempt, waits =>
    match op attempt with
    | .success v => (some v, waits)
    | _ =>
      if attempt = maxRetries then (none, waits)
      else executeWithRetryGo op maxRetries retryDelay fuel (attempt + 1)
        (waits ++ [retryDelay * attempt])

/-- Embedding of `_execute_with_retry`: attempts run from 1 to `max_retries`; when the
range is empty the function falls through and returns `None`. -/
def executeWithRetry {ρ : Type} (op : Nat → AttemptOutcome ρ)
    (maxRetries retryDelay : Nat) : Option ρ × List Nat :=
  executeWithRetryGo op maxRetries retryDelay maxRetries 1 []

/-- The registry state of `OpenRouterApiClient`: `self._registered_tools`
and `self._tool_handlers`. -/
structure ToolRegistry (σ α : Type) where
  registeredTools : List (String × σ)
  toolHandlers : List (String × (α → Except String String))

/-- Embedding of `OpenRouterApiClient.register_tool`: store the schema under the name
(overwriting any prior entry), and the handler when one is given. -/
def registerTool {σ α : Type} (s : ToolRegistry σ α) (tool_name : String)
    (tool_schema : σ) (handler : Option (α → Except String String)) : ToolRegistry σ α :=
  { registeredTools := dictSet s.registeredTools tool_name tool_schema,
    toolHandlers :=
      match handler with
      | some h => dictSet s.toolHandlers tool_name h
      | none => s.toolHandlers }

/-- Embedding of `OpenRouterApiClient.unregister_tool`: delete the entries when the
name is registered, otherwise only log a warning. -/
def unregisterTool {σ α : Type} (s : ToolRegistry σ α) (tool_name : String) :
    ToolRegistry σ α :=
  if (dictGet s.registeredTools tool_name).isSome then
    { registeredTools := dictDel s.registeredTools tool_name,
      toolHandlers :=
        if (dictGet s.toolHandlers tool_name).isSome then
          dictDel s.toolHandlers tool_name
        else s.toolHandlers }
  else s

/-- Embedding of `OpenRouterApiClient.get_registered_tools`: returns
`self._registered_tools.copy()`; in this embedding values are immutable so
the defensive copy is the mapping itself. -/
def getRegisteredTools {σ α : Type} (s : ToolRegistry σ α) : List (String × σ) :=
  s.registeredTools

/-
Store-passing translation for the aliasing claim.  A `Heap` holds every
Python list object alive during a run, addressed by index; `heapCopy`
models `xs.copy()` (fresh object, same elements) and `heapAppend` models
the in-place `xs.append(m)`.
-/

/-- The store of message-list objects. -/
abbrev Heap : Type := List (List Message)

/-- Dereference a list object. -/
def heapRead (h : Heap) (i : Nat) : List Message :=
  List.getD h i []

/-- Embedding of `xs.copy()`: allocate a fresh object holding the same elements;
returns the new store and the address of the copy. -/
def heapCopy (h : Heap) (i : Nat) : Heap × Nat :=
  (h ++ [heapRead h i], List.length h)

/-- Embedding of `xs.append(m)`: in-place mutation of the object at `i`. -/
def heapAppend (h : Heap) (i : Nat) (m : Message) : Heap :=
  List.set h i (heapRead h i ++ [m])

/-- Embedding of `McpClient._process_tool_calls`, store-passing: copy the incoming
list, append the assistant tool-call message, then append each tool
result; the address of the copy is returned (the incoming object when no
tool calls are present). -/
def mcpProcessToolCallsHeap {α : Type} (clients : List (String × (α → Except String String)))
    (decode : String → Except String α) (message : Message) (h : Heap) (cur : Nat) :
    Heap × Nat :=
  if message.tool_calls.isEmpty then (h, cur)
  else
    let tool_calls := message.tool_calls
    let tool_results := tool_calls.map (mcpExecToolCall clients decode)
    let c := heapCopy h cur
    let h₂ := heapAppend c.1 c.2 (assistantToolCallMessage tool_calls)
    let h₃ := tool_results.foldl (fun hh r => heapAppend hh c.2 (toolResultMessage r)) h₂
    (h₃, c.2)

/-- The `McpClient.agent` loop, store-passing: `current_messages` is an
address into the heap, rebound to the list `_process_tool_calls`
returned. -/
def mcpAgentLoopHeap {α : Type} (llm : List Message → Message)
    (clients : List (String × (α → Except String String)))
    (decode : String → Except String α) : Nat → Heap → Nat → Heap × Nat
  | 0, h, cur => (h, cur)
  | fuel + 1, h, cur =>
    let message := llm (heapRead h cur)
    let r := mcpProcessToolCallsHeap clients decode message h cur
    if message.tool_calls.isEmpty then r
    else mcpAgentLoopHeap llm clients decode fuel r.1 r.2

/-- Embedding of `McpClient.agent`, store-passing: `current_messages = messages.copy()`
then the loop; returns the final store and the address of the working
conversation. -/
def mcpAgentHeap {α : Type} (llm : List Message → Message)
    (clients : List (String × (α → Except String String)))
    (decode : String → Except String α) (h : Heap) (messagesAddr : Nat)
    (maxIterations : Int) : Heap × Nat :=
  let c := heapCopy h messagesAddr
  mcpAgentLoopHeap llm clients decode maxIterations.toNat c.1 c.2

/-- The `OpenRouterApiClient._execute_agent_loop` loop, store-passing:
tool results and the assistant message are appended in place to the one
working list allocated at loop start. -/
def orAgentLoopHeap {α σ : Type} (llm : List Message → Message)
    (registered : List (String × σ))
    (handlers : List (String × (α → Except String String)))
    (decode : String → Except String α) (dumps : String → String) :
    Nat → Heap → Nat → Heap × Nat
  | 0, h, cur => (h, cur)
  | fuel + 1, h, cur =>
    let message := llm (heapRead h cur)
    if message.tool_calls.isEmpty then (h, cur)
    else
      let tool_calls := message.tool_calls
      let tool_results := tool_calls.map (orExecToolCall registered handlers decode dumps)
      let h₂ := tool_results.foldl (fun hh r => heapAppend hh cur (toolResultMessage r)) h
      let h₃ := heapAppend h₂ cur (assistantToolCallMessage tool_calls)
      orAgentLoopHeap llm registered handlers decode dumps fuel h₃ cur

/-- Embedding of the `OpenRouterApiClient._execute_agent_loop` entry, store-passing:
`current_messages = messages.copy()` then the loop. -/
def orAgentHeap {α σ : Type} (llm : List Message → Message)
    (registered : List (String × σ))
    (handlers : List (String × (α → Except String String)))
    (decode : String → Except String α) (dumps : String → String)
    (h : Heap) (messagesAddr : Nat) (maxIterations : Int) : Heap × Nat :=
  let c := heapCopy h messagesAddr
  orAgentLoopHeap llm registered handlers decode dumps maxIterations.toNat c.1 c.2

/-
Concrete inputs used by counterexamples and witnesses.
-/

/-- A caller-supplied user message. -/
def userMsg : Message :=
  { role := "user", content := some "weather in Paris", tool_calls := [],
    tool_call_id := none, name := none, parsed := none }

/-- A model-issued call of the `echo` tool. -/
def demoToolCall : ToolCall :=
  { id := "call-1", type := "function",
    function := { name := "echo", arguments := "42" } }

/-- A model response requesting one tool call. -/
def msgWithCall : Message :=
  { role := "assistant", content := none, tool_calls := [demoToolCall],
    tool_call_id := none, name := none, parsed := none }

/-- A plain final model response with no tool calls. -/
def msgPlain : Message :=
  { role := "assistant", content := some "done", tool_calls := [],
    tool_call_id := none, name := none, parsed := none }

/-- A model that requests the `echo` tool on the first turn (conversation
still the single user message) and answers plainly afterwards. -/
def demoLlm : List Message → Message :=
  fun msgs => if msgs.length ≤ 1 then msgWithCall else msgPlain

/-- A model that requests a tool call on every turn. -/
def alwaysToolLlm : List Message → Message :=
  fun _ => msgWithCall

/-- A trivially-succeeding argument decoder. -/
def demoDecode : String → Except String String :=
  fun s => .ok s

/-- One local MCP client serving the `echo` tool. -/
def demoClients : List (String × (String → Except String String)) :=
  [("echo", fun args => .ok args)]

/-- One registered tool schema for the `echo` tool. -/
def demoRegistered : List (String × String) :=
  [("echo", "schema")]

/-- One registered handler for the `echo` tool. -/
def demoHandlers : List (String × (String → Except String String)) :=
  [("echo", fun args => .ok args)]

/-- A tool call whose name is registered nowhere. -/
def unknownToolCall : ToolCall :=
  { id := "call-9", type := "function",
    function := { name := "ghost", arguments := "null" } }

/-- The tool result the `echo` scenario produces. -/
def demoToolResult : ToolResult :=
  { tool_call_id := "call-1", role := "tool", name := "echo", content := "42" }

/-- The snapshots yielded by streaming the always-tool-calling model with
a budget of one iteration. -/
def demoStreamSnaps : List Snapshot :=
  [mkSnapshot false msgWithCall [] [] 1 false,
   mkSnapshot false msgWithCall [demoToolCall] [demoToolResult] 1 false,
   mkSnapshot false msgWithCall [demoToolCall] [demoToolResult] 1 true]

/-- An argument decoder that raises `json.JSONDecodeError` on every
payload. -/
def failDecode : String → Except String String :=
  fun _ => .error "bad json"

/-- A registered handler for `echo` that raises on every call. -/
def failHandlers : List (String × (String → Except String String)) :=
  [("echo", fun _ => .error "boom")]

/-- A retry scenario: timeout, then an unrecognized exception class, then
an upstream error — never a success. -/
def demoRetryOp : Nat → AttemptOutcome String
  | 1 => .timeout
  | 2 => .unexpectedError
  | _ => .openAIError

/-- A retry scenario that times out twice and succeeds on attempt 3. -/
def demoRetryOp₂ : Nat → AttemptOutcome String
  | 1 => .timeout
  | 2 => .timeout
  | _ => .success "ok"

/-
Helper lemmas.
-/

/-- A content of the form `"Error: " ++ e` begins with `"Error:"`. -/
theorem strStartsWith_error_prefix (e : String) :
    strStartsWith ("Error: " ++ e) "Error:" = true := by
  simp [strStartsWith, String.toList, String.data_append, List.isPrefixOf]

/-- The `McpClient.agent` loop performs at most `fuel` further model
invocations. -/
theorem mcpAgentLoop_llmCalls_le {α : Type} (llm : List Message → Message)
    (clients : List (String × (α → Except String String)))
    (decode : String → Except String α) :
    ∀ (fuel : Nat) (st : LoopState),
      (mcpAgentLoop llm clients decode fuel st).llmCalls ≤ st.llmCalls + fuel := by
  intro fuel
  induction fuel with
  | zero => intro st; simp [mcpAgentLoop]
  | succ n ih =>
    intro st
    simp only [mcpAgentLoop]
    split
    · simp
    · exact le_trans (ih _) (by simp; omega)

/-- The `_execute_agent_loop` loop performs at most `fuel` further model
invocations. -/
theorem orAgentLoop_llmCalls_le {α σ : Type} (llm : List Message → Message)
    (registered : List (String × σ))
    (handlers : List (String × (α → Except String String)))
    (decode : String → Except String α) (dumps : String → String) :
    ∀ (fuel : Nat) (st : LoopState),
      (orAgentLoop llm registered handlers decode dumps fuel st).llmCalls ≤ st.llmCalls + fuel := by
  intro fuel
  induction fuel with
  | zero => intro st; simp [orAgentLoop]
  | succ n ih =>
    intro st
    simp only [orAgentLoop]
    split
    · simp
    · exact le_trans (ih _) (by simp; omega)

/-- Once the `message` local is assigned it stays assigned
(`McpClient.agent` loop). -/
theorem mcpAgentLoop_lastMessage_isSome_mono {α : Type} (llm : List Message → Message)
    (clients : List (String × (α → Except String String)))
    (decode : String → Except String α) :
    ∀ (fuel : Nat) (st : LoopState), st.lastMessage.isSome →
      (mcpAgentLoop llm clients decode fuel st).lastMessage.isSome := by
  intro fuel
  induction fuel with
  | zero => intro st h; simpa [mcpAgentLoop] using h
  | succ n ih =>
    intro st h
    simp only [mcpAgentLoop]
    split
    · simp
    · exact ih _ (by simp)

/-- After at least one loop pass the `message` local is assigned
(`McpClient.agent` loop). -/
theorem mcpAgentLoop_succ_lastMessage_isSome {α : Type} (llm : List Message → Message)
    (clients : List (String × (α → Except String String)))
    (decode : String → Except String α) (fuel : Nat) (st : LoopState) :
    (mcpAgentLoop llm clients decode (fuel + 1) st).lastMessage.isSome := by
  simp only [mcpAgentLoop]
  split
  · simp
  · exact mcpAgentLoop_lastMessage_isSome_mono llm clients decode _ _ (by simp)

/-- Once the `message` local is assigned it stays assigned
(`_execute_agent_loop`). -/
theorem orAgentLoop_lastMessage_isSome_mono {α σ : Type} (llm : List Message → Message)
    (registered : List (String × σ))
    (handlers : List (String × (α → Except String String)))
    (decode : String → Except String α) (dumps : String → String) :
    ∀ (fuel : Nat) (st : LoopState), st.lastMessage.isSome →
      (orAgentLoop llm registered handlers decode dumps fuel st).lastMessage.isSome := by
  intro fuel
  induction fuel with
  | zero => intro st h; simpa [orAgentLoop] using h
  | succ n ih =>
    intro st h
    simp only [orAgentLoop]
    split
    · simp
    · exact ih _ (by simp)

/-- After at least one loop pass the `final_result` local is assigned
(`_execute_agent_loop`). -/
theorem orAgentLoop_succ_lastMessage_isSome {α σ : Type} (llm : List Message → Message)
    (registered : List (String × σ))
    (handlers : List (String × (α → Except String String)))
    (decode : String → Except String α) (dumps : String → String)
    (fuel : Nat) (st : LoopState) :
    (orAgentLoop llm registered handlers decode dumps (fuel + 1) st).lastMessage.isSome := by
  simp only [orAgentLoop]
  split
  · simp
  · exact orAgentLoop_lastMessage_isSome_mono llm registered handlers decode dumps _ _ (by simp)

/-- The method `McpClient.agent` builds its result from the `message` local when the
loop assigned one. -/
theorem mcpAgent_eq_of_some {α : Type} (llm : List Message → Message)
    (clients : List (String × (α → Except String String)))
    (decode : String → Except String α) (sp : Bool) (messages : List Message)
    (N : Int) (m : Message)
    (hm : (mcpAgentLoop llm clients decode N.toNat (initLoopState messages)).lastMessage
      = some m) :
    mcpAgent llm clients decode sp messages N
      = .ok (mkAgentResult sp m
          (mcpAgentLoop llm clients decode N.toNat (initLoopState messages)).allToolCalls
          (mcpAgentLoop llm clients decode N.toNat (initLoopState messages)).allToolResults) := by
  simp only [mcpAgent, hm]

/-- The loop `_execute_agent_loop` builds its result from the `final_result` local
when the loop assigned one. -/
theorem orAgent_eq_of_some {α σ : Type} (llm : List Message → Message)
    (registered : List (String × σ))
    (handlers : List (String × (α → Except String String)))
    (decode : String → Except String α) (dumps : String → String)
    (sp : Bool) (messages : List Message) (N : Int) (m : Message)
    (hm : (orAgentLoop llm registered handlers decode dumps N.toNat
        (initLoopState messages)).lastMessage = some m) :
    orAgent llm registered handlers decode dumps sp messages N
      = .ok (mkAgentResult sp m
          (orAgentLoop llm registered handlers decode dumps N.toNat
            (initLoopState messages)).allToolCalls
          (orAgentLoop llm registered handlers decode dumps N.toNat
            (initLoopState messages)).allToolResults) := by
  simp only [orAgent, hm]

/-- With a positive iteration budget `McpClient.agent` returns a result
dictionary rather than raising. -/
theorem mcpAgent_isOk_of_pos {α : Type} (llm : List Message → Message)
    (clients : List (String × (α → Except String String)))
    (decode : String → Except String α) (sp : Bool) (messages : List Message)
    (N : Int) (hN : 1 ≤ N) :
    ∃ r, mcpAgent llm clients decode sp messages N = .ok r := by
  obtain ⟨k, hk⟩ : ∃ k, N.toNat = k + 1 := ⟨N.toNat - 1, by omega⟩
  have hsome := mcpAgentLoop_succ_lastMessage_isSome llm clients decode k (initLoopState messages)
  rw [Option.isSome_iff_exists] at hsome
  obtain ⟨m, hm⟩ := hsome
  rw [← hk] at hm
  exact ⟨_, mcpAgent_eq_of_some llm clients decode sp messages N m hm⟩

/-- With a positive iteration budget `_execute_agent_loop` returns a
result dictionary rather than raising. -/
theorem orAgent_isOk_of_pos {α σ : Type} (llm : List Message → Message)
    (registered : List (String × σ))
    (handlers : List (String × (α → Except String String)))
    (decode : String → Except String α) (dumps : String → String)
    (sp : Bool) (messages : List Message) (N : Int) (hN : 1 ≤ N) :
    ∃ r, orAgent llm registered handlers decode dumps sp messages N = .ok r := by
  obtain ⟨k, hk⟩ : ∃ k, N.toNat = k + 1 := ⟨N.toNat - 1, by omega⟩
  have hsome := orAgentLoop_succ_lastMessage_isSome llm registered handlers decode dumps k
    (initLoopState messages)
  rw [Option.isSome_iff_exists] at hsome
  obtain ⟨m, hm⟩ := hsome
  rw [← hk] at hm
  exact ⟨_, orAgent_eq_of_some llm registered handlers decode dumps sp messages N m hm⟩

/-- Looking up a key right after setting it yields the stored value. -/
theorem dictGet_dictSet_self {γ : Type} (d : List (String × γ)) (k : String) (v : γ) :
    dictGet (dictSet d k v) k = some v := by
  induction d with
  | nil => simp [dictSet, dictGet]
  | cons p rest ih =>
    rcases p with ⟨k₀, v₀⟩
    by_cases h : k₀ = k
    · simp [dictSet, dictGet, h]
    · simp [dictSet, dictGet, h, ih]

/-- Looking up a key right after deleting it yields nothing. -/
theorem dictGet_dictDel_self {γ : Type} (d : List (String × γ)) (k : String) :
    dictGet (dictDel d k) k = none := by
  induction d with
  | nil => rfl
  | cons p rest ih =>
    rcases p with ⟨k₀, v₀⟩
    by_cases h : k₀ = k
    · subst h
      simpa [dictDel, List.filter, bne_self_eq_false] using ih
    · have hb : (k₀ != k) = true := by simp [bne, h]
      simpa [dictDel, List.filter, hb, dictGet, h] using ih

/-
Claim theorems.
-/

/-- C1: evaluating both loops on the same two-turn run (one `echo` tool
call, then a plain answer) shows that `McpClient._process_tool_calls`
appends the assistant tool-call message first and the tool result after
it, while `OpenRouterApiClient._execute_agent_loop` appends the tool
result first and the assistant tool-call message after it — so the
claimed assistant-first contiguous ordering fails for the OpenRouter
loop. -/
theorem toolcall_ordering_divergence_check :
    (mcpAgentLoop demoLlm demoClients demoDecode 2 (initLoopState [userMsg])).currentMessages
        = [userMsg, assistantToolCallMessage [demoToolCall], toolResultMessage demoToolResult]
      ∧ (orAgentLoop demoLlm demoRegistered demoHandlers demoDecode id 2
            (initLoopState [userMsg])).currentMessages
        = [userMsg, toolResultMessage demoToolResult, assistantToolCallMessage [demoToolCall]]
      ∧ ¬ (orAgentLoop demoLlm demoRegistered demoHandlers demoDecode id 2
            (initLoopState [userMsg])).currentMessages
        = [userMsg, assistantToolCallMessage [demoToolCall], toolResultMessage demoToolResult] := by
  refine ⟨by decide, by decide, by decide⟩

/-- C3 counterexample: dispatching the unregistered tool `ghost` through
`OpenRouterApiClient._execute_tool` inside the agent loop yields the
content `Error: Tool (squote)ghost(squote) is not registered`, which does
not contain the claimed fixed form `No ... found for tool:`. -/
theorem unknown_tool_message_form_counterexample :
    (orExecToolCall demoRegistered ([] : List (String × (String → Except String String)))
        demoDecode id unknownToolCall).content
      = "Error: Tool " ++ sqs ++ "ghost" ++ sqs ++ " is not registered"
    ∧ containsSubstr
        (orExecToolCall demoRegistered ([] : List (String × (String → Except String String)))
          demoDecode id unknownToolCall).content "found for tool:" = false := by
  refine ⟨by decide, by decide⟩

/-- C3 amended: an unknown tool name is handled without raising in both
dispatchers, but with different contents — `McpClient` produces
`Error: No MCP client found for tool: (name)` (the not-found form,
prefixed with `Error: `), while `OpenRouterApiClient` produces
`Error: Tool (squote)(name)(squote) is not registered`; in both clients
the agent loop continues and returns normally. -/
theorem unknown_tool_dispatch_amended {α σ : Type}
    (clients : List (String × (α → Except String String)))
    (registered : List (String × σ))
    (handlers : List (String × (α → Except String String)))
    (decode decode₂ : String → Except String α) (dumps : String → String)
    (tc tc₂ : ToolCall) (args args₂ : α)
    (llm llm₂ : List Message → Message) (messages messages₂ : List Message) (N N₂ : Int)
    (hdec : decode tc.function.arguments = .ok args)
    (hmcp : dictGet clients tc.function.name = none)
    (hdec₂ : decode₂ tc₂.function.arguments = .ok args₂)
    (hreg : dictGet registered tc₂.function.name = none)
    (hN : 1 ≤ N) (hN₂ : 1 ≤ N₂) :
    (mcpExecToolCall clients decode tc).content
        = "Error: No MCP client found for tool: " ++ tc.function.name
      ∧ (orExecToolCall registered handlers decode₂ dumps tc₂).content
        = "Error: Tool " ++ sqs ++ tc₂.function.name ++ sqs ++ " is not registered"
      ∧ (∃ r, mcpAgent llm clients decode false messages N = .ok r)
      ∧ (∃ r, orAgent llm₂ registered handlers decode₂ dumps false messages₂ N₂ = .ok r) := by
  refine ⟨?_, ?_, mcpAgent_isOk_of_pos llm clients decode false messages N hN,
    orAgent_isOk_of_pos llm₂ registered handlers decode₂ dumps false messages₂ N₂ hN₂⟩
  · simp [mcpExecToolCall, mcpToolAttempt, hdec, hmcp]
  · have hlit : ("Error: " : String) ++ "Tool " = "Error: Tool " := rfl
    simp [orExecToolCall, orToolAttempt, hdec₂, orExecuteTool, hreg, ← String.append_assoc, hlit]

/-- C3 amended, witness: concrete unknown-tool run through both
dispatchers. -/
theorem unknown_tool_dispatch_amended_witness :
    (mcpExecToolCall demoClients demoDecode unknownToolCall).content
        = "Error: No MCP client found for tool: " ++ unknownToolCall.function.name
      ∧ (orExecToolCall demoRegistered demoHandlers demoDecode id unknownToolCall).content
        = "Error: Tool " ++ sqs ++ unknownToolCall.function.name ++ sqs ++ " is not registered"
      ∧ (∃ r, mcpAgent demoLlm demoClients demoDecode false [userMsg] 2 = .ok r)
      ∧ (∃ r, orAgent demoLlm demoRegistered demoHandlers demoDecode id false [userMsg] 2 = .ok r) :=
  unknown_tool_dispatch_amended demoClients demoRegistered demoHandlers demoDecode demoDecode id
    unknownToolCall unknownToolCall "null" "null" demoLlm demoLlm [userMsg] [userMsg] 2 2
    rfl rfl rfl rfl (by decide) (by decide)

/-- C4: when the argument payload fails to decode or the local handler
raises — i.e. the dispatch attempt of either client ends in an exception
`e` — the produced `ToolResult` content is `"Error: " ++ e`, which begins
with `Error:`; the failure is captured rather than propagated, and an
agent run with a positive budget still returns normally in both
clients. -/
theorem tool_failure_captured_in_result {α σ : Type}
    (clients : List (String × (α → Except String String)))
    (registered : List (String × σ))
    (handlers : List (String × (α → Except String String)))
    (decode decode₂ : String → Except String α) (dumps : String → String)
    (tc tc₂ : ToolCall) (e e₂ : String)
    (llm llm₂ : List Message → Message) (messages messages₂ : List Message) (N N₂ : Int)
    (h₁ : mcpToolAttempt clients decode tc = .error e)
    (h₂ : orToolAttempt registered handlers decode₂ dumps tc₂ = .error e₂)
    (hN : 1 ≤ N) (hN₂ : 1 ≤ N₂) :
    (mcpExecToolCall clients decode tc).content = "Error: " ++ e
      ∧ strStartsWith (mcpExecToolCall clients decode tc).content "Error:" = true
      ∧ (orExecToolCall registered handlers decode₂ dumps tc₂).content = "Error: " ++ e₂
      ∧ strStartsWith (orExecToolCall registered handlers decode₂ dumps tc₂).content "Error:" = true
      ∧ (∃ r, mcpAgent llm clients decode false messages N = .ok r)
      ∧ (∃ r, orAgent llm₂ registered handlers decode₂ dumps false messages₂ N₂ = .ok r) := by
  have hc₁ : (mcpExecToolCall clients decode tc).content = "Error: " ++ e := by
    simp [mcpExecToolCall, h₁]
  have hc₂ : (orExecToolCall registered handlers decode₂ dumps tc₂).content = "Error: " ++ e₂ := by
    simp [orExecToolCall, h₂]
  refine ⟨hc₁, ?_, hc₂, ?_,
    mcpAgent_isOk_of_pos llm clients decode false messages N hN,
    orAgent_isOk_of_pos llm₂ registered handlers decode₂ dumps false messages₂ N₂ hN₂⟩
  · rw [hc₁]; exact strStartsWith_error_prefix e
  · rw [hc₂]; exact strStartsWith_error_prefix e₂

/-- C4, witness: a failing decoder on one side and a raising handler on
the other, in one concrete run. -/
theorem tool_failure_captured_in_result_witness :
    (mcpExecToolCall demoClients failDecode demoToolCall).content = "Error: " ++ "bad json"
      ∧ strStartsWith (mcpExecToolCall demoClients failDecode demoToolCall).content "Error:" = true
      ∧ (orExecToolCall demoRegistered failHandlers demoDecode id demoToolCall).content
        = "Error: " ++ "boom"
      ∧ strStartsWith (orExecToolCall demoRegistered failHandlers demoDecode id
          demoToolCall).content "Error:" = true
      ∧ (∃ r, mcpAgent demoLlm demoClients failDecode false [userMsg] 2 = .ok r)
      ∧ (∃ r, orAgent demoLlm demoRegistered failHandlers demoDecode id false [userMsg] 2 = .ok r) :=
  tool_failure_captured_in_result demoClients demoRegistered failHandlers failDecode demoDecode id
    demoToolCall demoToolCall "bad json" "boom" demoLlm demoLlm [userMsg] [userMsg] 2 2
    rfl rfl (by decide) (by decide)

/-- C9: registering a tool then listing yields an entry for the name
whose schema equals the registered one; a later registration under the
same name overwrites the earlier one without error; and after
`unregister_tool` the name is absent from any listing taken of the
resulting registry. -/
theorem tool_registry_roundtrip {σ α : Type} (s : ToolRegistry σ α) (name : String)
    (schema schema₂ : σ) (h₁ h₂ : Option (α → Except String String)) :
    dictGet (getRegisteredTools (registerTool s name schema h₁)) name = some schema
      ∧ dictGet (getRegisteredTools
          (registerTool (registerTool s name schema h₁) name schema₂ h₂)) name = some schema₂
      ∧ ∀ s₂ : ToolRegistry σ α,
          dictGet (getRegisteredTools (unregisterTool s₂ name)) name = none := by
  refine ⟨?_, ?_, ?_⟩
  · simp [getRegisteredTools, registerTool, dictGet_dictSet_self]
  · simp [getRegisteredTools, registerTool, dictGet_dictSet_self]
  · intro s₂
    unfold unregisterTool getRegisteredTools
    split
    · exact dictGet_dictDel_self _ _
    · next hcond => simpa using hcond

/-- C2: for an agent-loop run with iteration budget `N ≥ 1`, both loops
perform at most `N` model invocations, whatever the model, tools,
decoder and initial conversation are. -/
theorem agent_loop_model_invocations_le_max {α σ : Type}
    (llm llm₂ : List Message → Message)
    (clients : List (String × (α → Except String String)))
    (registered : List (String × σ))
    (handlers : List (String × (α → Except String String)))
    (decode decode₂ : String → Except String α) (dumps : String → String)
    (messages messages₂ : List Message) (N : Int) (hN : 1 ≤ N) :
    ((mcpAgentLoop llm clients decode N.toNat (initLoopState messages)).llmCalls : Int) ≤ N
      ∧ ((orAgentLoop llm₂ registered handlers decode₂ dumps N.toNat
          (initLoopState messages₂)).llmCalls : Int) ≤ N := by
  have h₁ := mcpAgentLoop_llmCalls_le llm clients decode N.toNat (initLoopState messages)
  have h₂ := orAgentLoop_llmCalls_le llm₂ registered handlers decode₂ dumps N.toNat
    (initLoopState messages₂)
  have e₁ : (initLoopState messages).llmCalls = 0 := rfl
  have e₂ : (initLoopState messages₂).llmCalls = 0 := rfl
  rw [e₁] at h₁
  rw [e₂] at h₂
  constructor <;> omega

/-- C2, witness: a concrete three-iteration run of both loops. -/
theorem agent_loop_model_invocations_le_max_witness :
    ((mcpAgentLoop demoLlm demoClients demoDecode (3 : Int).toNat
        (initLoopState [userMsg])).llmCalls : Int) ≤ 3
      ∧ ((orAgentLoop demoLlm demoRegistered demoHandlers demoDecode id (3 : Int).toNat
          (initLoopState [userMsg])).llmCalls : Int) ≤ 3 :=
  agent_loop_model_invocations_le_max demoLlm demoLlm demoClients demoRegistered demoHandlers
    demoDecode demoDecode id [userMsg] [userMsg] 3 (by decide)

/-- The retry loop returns no result when every attempt from `attempt` to
`max_retries` fails, for any mix of caught failure classes. -/
theorem executeWithRetryGo_none {ρ : Type} (op : Nat → AttemptOutcome ρ)
    (maxRetries retryDelay : Nat) :
    ∀ (fuel attempt : Nat) (waits : List Nat),
      (∀ a, attempt ≤ a → a ≤ maxRetries → (op a).isSuccess = false) →
      attempt + fuel = maxRetries + 1 →
      (executeWithRetryGo op maxRetries retryDelay fuel attempt waits).1 = none := by
  intro fuel
  induction fuel with
  | zero => intro attempt waits hf hsum; simp [executeWithRetryGo]
  | succ n ih =>
    intro attempt waits hf hsum
    have h1 : (op attempt).isSuccess = false := hf attempt le_rfl (by omega)
    cases hop : op attempt
    case success v => rw [hop] at h1; simp [AttemptOutcome.isSuccess] at h1
    all_goals
      simp only [executeWithRetryGo, hop]
      split
      · rfl
      · exact ih (attempt + 1) _ (fun a ha hb => hf a (by omega) hb) (by omega)

/-- C5: when the wrapped operation fails on all `max_retries` attempts —
by timeout, JSON parse failure, upstream API error or an unrecognized
exception class — `_execute_with_retry` returns `None` instead of
raising; in particular no failure class propagates before the budget is
exhausted. -/
theorem retry_exhaustion_returns_none {ρ : Type} (op : Nat → AttemptOutcome ρ)
    (maxRetries retryDelay : Nat)
    (hfail : ∀ a, 1 ≤ a → a ≤ maxRetries → (op a).isSuccess = false) :
    (executeWithRetry op maxRetries retryDelay).1 = none :=
  executeWithRetryGo_none op maxRetries retryDelay maxRetries 1 [] hfail (by omega)

/-- C5, witness: three attempts failing with three different classes
(timeout, unrecognized exception, upstream error) exhaust to `none`. -/
theorem retry_exhaustion_returns_none_witness :
    (executeWithRetry demoRetryOp 3 2).1 = none :=
  retry_exhaustion_returns_none demoRetryOp 3 2
    (fun a _ _ => by rcases a with _ | _ | _ | n <;> rfl)

/-- C6: with `max_retries = 3`, timeouts on attempts 1 and 2 and success
on attempt 3, the executor returns the attempt-3 result, and the backoff
waits performed are `retry_delay * 1` then `retry_delay * 2`, so their
sum is at least `retry_delay * 1 + retry_delay * 2`. -/
theorem retry_backoff_scenario {ρ : Type} (op : Nat → AttemptOutcome ρ) (d : Nat) (v : ρ)
    (h₁ : op 1 = .timeout) (h₂ : op 2 = .timeout) (h₃ : op 3 = .success v) :
    executeWithRetry op 3 d = (some v, [d * 1, d * 2])
      ∧ d * 1 + d * 2 ≤ (executeWithRetry op 3 d).2.sum := by
  have hres : executeWithRetry op 3 d = (some v, [d * 1, d * 2]) := by
    simp [executeWithRetry, executeWithRetryGo, h₁, h₂, h₃]
  exact ⟨hres, by rw [hres]; simp [List.sum]⟩

/-- C6, witness: the concrete timeout-timeout-success operation with
`retry_delay = 2`. -/
theorem retry_backoff_scenario_witness :
    executeWithRetry demoRetryOp₂ 3 2 = (some "ok", [2 * 1, 2 * 2])
      ∧ 2 * 1 + 2 * 2 ≤ (executeWithRetry demoRetryOp₂ 3 2).2.sum :=
  retry_backoff_scenario demoRetryOp₂ 2 "ok" rfl rfl rfl

/-- Each pass of the `agent_stream` loop yields at most two snapshots. -/
theorem mcpAgentStreamLoop_length_le {α : Type} (llm : List Message → Message)
    (clients : List (String × (α → Except String String)))
    (decode : String → Except String α) (sp : Bool) :
    ∀ (fuel : Nat) (st : LoopState),
      (mcpAgentStreamLoop llm clients decode sp fuel st).1.length ≤ 2 * fuel := by
  intro fuel
  induction fuel with
  | zero => intro st; simp [mcpAgentStreamLoop]
  | succ n ih =>
    intro st
    simp only [mcpAgentStreamLoop]
    split
    · simp; omega
    · simp only [List.length_cons]
      exact le_trans (Nat.add_le_add_right (Nat.add_le_add_right (ih _) 1) 1) (by omega)

/-- Once the `message` local is assigned it stays assigned
(`agent_stream` loop). -/
theorem mcpAgentStreamLoop_lastMessage_isSome_mono {α : Type} (llm : List Message → Message)
    (clients : List (String × (α → Except String String)))
    (decode : String → Except String α) (sp : Bool) :
    ∀ (fuel : Nat) (st : LoopState), st.lastMessage.isSome →
      (mcpAgentStreamLoop llm clients decode sp fuel st).2.lastMessage.isSome := by
  intro fuel
  induction fuel with
  | zero => intro st h; simpa [mcpAgentStreamLoop] using h
  | succ n ih =>
    intro st h
    simp only [mcpAgentStreamLoop]
    split
    · simp
    · exact ih _ (by simp)

/-- After at least one loop pass the `message` local is assigned
(`agent_stream` loop). -/
theorem mcpAgentStreamLoop_succ_lastMessage_isSome {α : Type} (llm : List Message → Message)
    (clients : List (String × (α → Except String String)))
    (decode : String → Except String α) (sp : Bool) (fuel : Nat) (st : LoopState) :
    (mcpAgentStreamLoop llm clients decode sp (fuel + 1) st).2.lastMessage.isSome := by
  simp only [mcpAgentStreamLoop]
  split
  · simp
  · exact mcpAgentStreamLoop_lastMessage_isSome_mono llm clients decode sp _ _ (by simp)

/-- The method `McpClient.agent_stream` ends with the final snapshot built from the
`message` local when the loop assigned one. -/
theorem mcpAgentStream_eq_of_some {α : Type} (llm : List Message → Message)
    (clients : List (String × (α → Except String String)))
    (decode : String → Except String α) (sp : Bool) (messages : List Message)
    (N : Int) (m : Message)
    (hm : (mcpAgentStreamLoop llm clients decode sp N.toNat
        (initLoopState messages)).2.lastMessage = some m) :
    mcpAgentStream llm clients decode sp messages N
      = .ok ((mcpAgentStreamLoop llm clients decode sp N.toNat (initLoopState messages)).1
          ++ [mkSnapshot sp m
              (mcpAgentStreamLoop llm clients decode sp N.toNat
                (initLoopState messages)).2.allToolCalls
              (mcpAgentStreamLoop llm clients decode sp N.toNat
                (initLoopState messages)).2.allToolResults
              (mcpAgentStreamLoop llm clients decode sp N.toNat
                (initLoopState messages)).2.iteration true]) := by
  simp only [mcpAgentStream, hm]

/-- C7 counterexample: with `max_iterations = 1` and a model that always
requests a tool call, `agent_stream` yields 3 snapshots — one after the
model invocation, one after tool dispatch, and the final one — which
exceeds the claimed bound of `max_iterations × 2 = 2`. -/
theorem stream_snapshot_bound_counterexample :
    (mcpAgentStream alwaysToolLlm demoClients demoDecode false [userMsg] 1).map List.length
        = Except.ok 3
      ∧ ¬ (3 ≤ 2 * 1) :=
  ⟨by rfl, by decide⟩

/-- C7 amended: the snapshot sequence of a streaming run is finite, and
its length is at most `max_iterations × 2 + 1` — up to two snapshots per
iteration plus the one final snapshot. -/
theorem stream_snapshot_count_amended {α : Type} (llm : List Message → Message)
    (clients : List (String × (α → Except String String)))
    (decode : String → Except String α) (sp : Bool) (messages : List Message)
    (N : Int) (snaps : List Snapshot)
    (h : mcpAgentStream llm clients decode sp messages N = .ok snaps) :
    snaps.length ≤ 2 * N.toNat + 1 := by
  simp only [mcpAgentStream] at h
  rcases hm : (mcpAgentStreamLoop llm clients decode sp N.toNat
      (initLoopState messages)).2.lastMessage with _ | m
  · rw [hm] at h
    simp at h
  · rw [hm] at h
    simp only [Except.ok.injEq] at h
    rw [← h]
    simp only [List.length_append, List.length_singleton]
    have hlen := mcpAgentStreamLoop_length_le llm clients decode sp N.toNat
      (initLoopState messages)
    omega

/-- C7 amended, witness: the three-snapshot run stays within `2 × 1 + 1`. -/
theorem stream_snapshot_count_amended_witness :
    (mcpAgentStream alwaysToolLlm demoClients demoDecode false [userMsg] 1
        = Except.ok demoStreamSnaps)
      ∧ demoStreamSnaps.length ≤ 2 * (1 : Int).toNat + 1 :=
  ⟨by rfl, stream_snapshot_count_amended alwaysToolLlm demoClients demoDecode false [userMsg] 1
    demoStreamSnaps (by rfl)⟩

/-- C10: with a non-positive iteration budget both `agent` and
`agent_stream` raise (the final-result construction reads the `message`
local that no iteration ever assigned); with a budget of at least one,
the final result and the final snapshot are built from the model message
of the last executed iteration. -/
theorem agent_budget_exhaustion_result {α : Type} (llm : List Message → Message)
    (clients : List (String × (α → Except String String)))
    (decode : String → Except String α) (sp : Bool) (messages : List Message) (N : Int) :
    (N ≤ 0 →
        mcpAgent llm clients decode sp messages N = .error unboundLocalMessage
          ∧ mcpAgentStream llm clients decode sp messages N = .error unboundLocalMessage)
      ∧ (1 ≤ N → ∃ m : Message,
          (mcpAgentLoop llm clients decode N.toNat (initLoopState messages)).lastMessage = some m
            ∧ mcpAgent llm clients decode sp messages N
              = .ok (mkAgentResult sp m
                  (mcpAgentLoop llm clients decode N.toNat (initLoopState messages)).allToolCalls
                  (mcpAgentLoop llm clients decode N.toNat
                    (initLoopState messages)).allToolResults))
      ∧ (1 ≤ N → ∃ m : Message,
          (mcpAgentStreamLoop llm clients decode sp N.toNat
              (initLoopState messages)).2.lastMessage = some m
            ∧ mcpAgentStream llm clients decode sp messages N
              = .ok ((mcpAgentStreamLoop llm clients decode sp N.toNat (initLoopState messages)).1
                  ++ [mkSnapshot sp m
                      (mcpAgentStreamLoop llm clients decode sp N.toNat
                        (initLoopState messages)).2.allToolCalls
                      (mcpAgentStreamLoop llm clients decode sp N.toNat
                        (initLoopState messages)).2.allToolResults
                      (mcpAgentStreamLoop llm clients decode sp N.toNat
                        (initLoopState messages)).2.iteration true])) := by
  refine ⟨?_, ?_, ?_⟩
  · intro hN
    have h0 : N.toNat = 0 := Int.toNat_of_nonpos hN
    constructor
    · simp [mcpAgent, h0, mcpAgentLoop, initLoopState]
    · simp [mcpAgentStream, h0, mcpAgentStreamLoop, initLoopState]
  · intro hN
    obtain ⟨k, hk⟩ : ∃ k, N.toNat = k + 1 := ⟨N.toNat - 1, by omega⟩
    have hsome := mcpAgentLoop_succ_lastMessage_isSome llm clients decode k
      (initLoopState messages)
    rw [← hk] at hsome
    rw [Option.isSome_iff_exists] at hsome
    obtain ⟨m, hm⟩ := hsome
    exact ⟨m, hm, mcpAgent_eq_of_some llm clients decode sp messages N m hm⟩
  · intro hN
    obtain ⟨k, hk⟩ : ∃ k, N.toNat = k + 1 := ⟨N.toNat - 1, by omega⟩
    have hsome := mcpAgentStreamLoop_succ_lastMessage_isSome llm clients decode sp k
      (initLoopState messages)
    rw [← hk] at hsome
    rw [Option.isSome_iff_exists] at hsome
    obtain ⟨m, hm⟩ := hsome
    exact ⟨m, hm, mcpAgentStream_eq_of_some llm clients decode sp messages N m hm⟩

/-- C10, witness: a run with budget `-1` raises on both shapes, and a run
with budget `2` returns results built from the last model message. -/
theorem agent_budget_exhaustion_result_witness :
    (mcpAgent demoLlm demoClients demoDecode false [userMsg] (-1) = .error unboundLocalMessage
        ∧ mcpAgentStream demoLlm demoClients demoDecode false [userMsg] (-1)
          = .error unboundLocalMessage)
      ∧ (∃ m : Message,
          (mcpAgentLoop demoLlm demoClients demoDecode (2 : Int).toNat
              (initLoopState [userMsg])).lastMessage = some m
            ∧ mcpAgent demoLlm demoClients demoDecode false [userMsg] 2
              = .ok (mkAgentResult false m
                  (mcpAgentLoop demoLlm demoClients demoDecode (2 : Int).toNat
                    (initLoopState [userMsg])).allToolCalls
                  (mcpAgentLoop demoLlm demoClients demoDecode (2 : Int).toNat
                    (initLoopState [userMsg])).allToolResults))
      ∧ (∃ m : Message,
          (mcpAgentStreamLoop demoLlm demoClients demoDecode false (2 : Int).toNat
              (initLoopState [userMsg])).2.lastMessage = some m
            ∧ mcpAgentStream demoLlm demoClients demoDecode false [userMsg] 2
              = .ok ((mcpAgentStreamLoop demoLlm demoClients demoDecode false (2 : Int).toNat
                    (initLoopState [userMsg])).1
                  ++ [mkSnapshot false m
                      (mcpAgentStreamLoop demoLlm demoClients demoDecode false (2 : Int).toNat
                        (initLoopState [userMsg])).2.allToolCalls
                      (mcpAgentStreamLoop demoLlm demoClients demoDecode false (2 : Int).toNat
                        (initLoopState [userMsg])).2.allToolResults
                      (mcpAgentStreamLoop demoLlm demoClients demoDecode false (2 : Int).toNat
                        (initLoopState [userMsg])).2.iteration true])) :=
  ⟨(agent_budget_exhaustion_result demoLlm demoClients demoDecode false [userMsg] (-1)).1
      (by decide),
    (agent_budget_exhaustion_result demoLlm demoClients demoDecode false [userMsg] 2).2.1
      (by decide),
    (agent_budget_exhaustion_result demoLlm demoClients demoDecode false [userMsg] 2).2.2
      (by decide)⟩

/-- Allocating a new object leaves existing objects readable unchanged. -/
theorem heapRead_append {h : Heap} {x : List Message} {i : Nat} (hi : i < h.length) :
    heapRead (h ++ [x]) i = heapRead h i := by
  induction h generalizing i with
  | nil => simp at hi
  | cons a t ih =>
    cases i with
    | zero => rfl
    | succ n =>
      show heapRead (t ++ [x]) n = heapRead t n
      exact ih (by simp at hi; omega)

/-- Writing one object leaves every other object unchanged. -/
theorem heapRead_set_ne {h : Heap} {v : List Message} {i j : Nat} (hij : i ≠ j) :
    heapRead (List.set h j v) i = heapRead h i := by
  induction h generalizing i j with
  | nil => rfl
  | cons a t ih =>
    cases j with
    | zero =>
      cases i with
      | zero => exact absurd rfl hij
      | succ n => rfl
    | succ m =>
      cases i with
      | zero => rfl
      | succ n =>
        show heapRead (List.set t m v) n = heapRead t n
        exact ih (by omega)

/-- In-place append to one object leaves every other object unchanged. -/
theorem heapRead_heapAppend_ne {h : Heap} {m : Message} {i j : Nat} (hij : i ≠ j) :
    heapRead (heapAppend h j m) i = heapRead h i :=
  heapRead_set_ne hij

/-- A fold of in-place appends to one object leaves every other object
unchanged. -/
theorem heapRead_foldl_heapAppend_ne {i j : Nat} (hij : i ≠ j) (f : ToolResult → Message) :
    ∀ (rs : List ToolResult) (h : Heap),
      heapRead (rs.foldl (fun hh r => heapAppend hh j (f r)) h) i = heapRead h i := by
  intro rs
  induction rs with
  | nil => intro h; rfl
  | cons r t ih =>
    intro h
    rw [List.foldl_cons, ih, heapRead_heapAppend_ne hij]

/-- In-place append preserves the number of allocated objects. -/
theorem length_heapAppend (h : Heap) (j : Nat) (m : Message) :
    (heapAppend h j m).length = h.length := by
  simp [heapAppend]

/-- A fold of in-place appends preserves the number of allocated
objects. -/
theorem length_foldl_heapAppend (j : Nat) (f : ToolResult → Message) :
    ∀ (rs : List ToolResult) (h : Heap),
      (rs.foldl (fun hh r => heapAppend hh j (f r)) h).length = h.length := by
  intro rs
  induction rs with
  | nil => intro h; rfl
  | cons r t ih =>
    intro h
    rw [List.foldl_cons, ih, length_heapAppend]

/-- The function `_process_tool_calls` (store-passing) never shrinks the store. -/
theorem mcpProcessToolCallsHeap_length_ge {α : Type}
    (clients : List (String × (α → Except String String)))
    (decode : String → Except String α) (message : Message) (h : Heap) (cur : Nat) :
    h.length ≤ (mcpProcessToolCallsHeap clients decode message h cur).1.length := by
  unfold mcpProcessToolCallsHeap
  split
  · exact le_refl _
  · simp [length_foldl_heapAppend, length_heapAppend, heapCopy]

/-- The function `_process_tool_calls` (store-passing) only writes to the list it
freshly copied, so every previously allocated object reads unchanged. -/
theorem mcpProcessToolCallsHeap_read {α : Type}
    (clients : List (String × (α → Except String String)))
    (decode : String → Except String α) (message : Message) {h : Heap} {cur i : Nat}
    (hi : i < h.length) :
    heapRead (mcpProcessToolCallsHeap clients decode message h cur).1 i = heapRead h i := by
  unfold mcpProcessToolCallsHeap
  split
  · rfl
  · simp only [heapCopy]
    rw [heapRead_foldl_heapAppend_ne (by omega) _ _ _, heapRead_heapAppend_ne (by omega),
      heapRead_append hi]

/-- The `McpClient.agent` loop (store-passing) leaves every object
allocated before it unchanged. -/
theorem mcpAgentLoopHeap_read {α : Type} (llm : List Message → Message)
    (clients : List (String × (α → Except String String)))
    (decode : String → Except String α) :
    ∀ (fuel : Nat) (h : Heap) (cur i : Nat), i < h.length →
      heapRead (mcpAgentLoopHeap llm clients decode fuel h cur).1 i = heapRead h i := by
  intro fuel
  induction fuel with
  | zero => intro h cur i hi; rfl
  | succ n ih =>
    intro h cur i hi
    simp only [mcpAgentLoopHeap]
    split
    · exact mcpProcessToolCallsHeap_read clients decode _ hi
    · rw [ih _ _ _
          (lt_of_lt_of_le hi (mcpProcessToolCallsHeap_length_ge clients decode _ h cur)),
        mcpProcessToolCallsHeap_read clients decode _ hi]

/-- The `_execute_agent_loop` loop (store-passing) only writes to its one
working list, leaving every other object unchanged. -/
theorem orAgentLoopHeap_read {α σ : Type} (llm : List Message → Message)
    (registered : List (String × σ))
    (handlers : List (String × (α → Except String String)))
    (decode : String → Except String α) (dumps : String → String) :
    ∀ (fuel : Nat) (h : Heap) (cur i : Nat), i ≠ cur →
      heapRead (orAgentLoopHeap llm registered handlers decode dumps fuel h cur).1 i
        = heapRead h i := by
  intro fuel
  induction fuel with
  | zero => intro h cur i hne; rfl
  | succ n ih =>
    intro h cur i hne
    simp only [orAgentLoopHeap]
    split
    · rfl
    · rw [ih _ _ _ hne, heapRead_heapAppend_ne hne, heapRead_foldl_heapAppend_ne hne]

/-- C8: neither `McpClient.agent` nor
`OpenRouterApiClient._execute_agent_loop` mutates the caller-supplied
message-list object: in the store-passing translation, after a run with
any budget, the list of the caller reads exactly as before the run — both
loops operate on the copy taken at entry. -/
theorem caller_messages_not_mutated {α σ : Type} (llm llm₂ : List Message → Message)
    (clients : List (String × (α → Except String String)))
    (registered : List (String × σ))
    (handlers : List (String × (α → Except String String)))
    (decode decode₂ : String → Except String α) (dumps : String → String)
    (N N₂ : Int) (h : Heap) (i : Nat) (hi : i < h.length) :
    heapRead (mcpAgentHeap llm clients decode h i N).1 i = heapRead h i
      ∧ heapRead (orAgentHeap llm₂ registered handlers decode₂ dumps h i N₂).1 i
        = heapRead h i := by
  constructor
  · unfold mcpAgentHeap
    simp only [heapCopy]
    rw [mcpAgentLoopHeap_read llm clients decode _ _ _ _ (by simp; omega),
      heapRead_append hi]
  · unfold orAgentHeap
    simp only [heapCopy]
    rw [orAgentLoopHeap_read llm₂ registered handlers decode₂ dumps _ _ _ _ (by omega),
      heapRead_append hi]

/-- C8, witness: a concrete two-iteration run of both store-passing
agents over a store holding the one-message list of the caller. -/
theorem caller_messages_not_mutated_witness :
    heapRead (mcpAgentHeap demoLlm demoClients demoDecode [[userMsg]] 0 2).1 0
        = heapRead [[userMsg]] 0
      ∧ heapRead (orAgentHeap demoLlm demoRegistered demoHandlers demoDecode id
          [[userMsg]] 0 2).1 0 = heapRead [[userMsg]] 0 :=
  caller_messages_not_mutated demoLlm demoLlm demoClients demoRegistered demoHandlers
    demoDecode demoDecode id 2 2 [[userMsg]] 0 (by decide)

end MbxaiAgent
